import Mathlib

/-!
Verification of the referral-recruitment backend (referd-backend).

This file shallowly embeds the business core of the repository:
the Application/Job/User/Company data model (models/Application.js,
models/Job.js, models/User.js, models/Company.js), the application
controller (controllers/applicationController.js: submitApplication,
updateApplicationStatus, withdrawApplication, processReferralPayment),
and the job controller (controllers/jobController.js: createJob,
updateJob, updateJobStatus, cleanupExpiredJobs).

Modelling conventions:
* MongoDB collections become lists of records inside a `Store`;
  findById / findOne become List.find?, and findByIdAndUpdate becomes a
  map over the list that rewrites the matching record (a no-op when the
  id is absent, exactly like findByIdAndUpdate).
* Monetary amounts and counters are Int (JS numbers; payout subtraction
  can drive pendingEarnings below zero, so Nat would be unfaithful).
* Timestamps are an abstract Nat passed in as `now` (Date.now()).
* Mongoose pre-save middleware on Application is modelled by `preSave`,
  applied exactly where `.save()` runs on a loaded document;
  `isModified('status')` is `status ≠ loadedStatus` (mongoose marks a
  path modified only when the assigned value differs from the loaded
  one).  `Application.create` runs the middleware with isNew = true, for
  which both status-related branches are inert, so submit does not call
  it.
* Free-form content fields that no business rule reads (cover letter,
  resume, interviews, consent, tracking analytics) are elided.
-/

namespace Referd

/-- Application.status enum from models/Application.js. -/
inductive AppStatus
  | pending
  | reviewing
  | shortlisted
  | interviewing
  | offered
  | hired
  | rejected
  | withdrawn
deriving DecidableEq, Repr

/-- Wire-level label of an application status (the mongoose enum strings). -/
def AppStatus.label : AppStatus → String
  | .pending => "pending"
  | .reviewing => "reviewing"
  | .shortlisted => "shortlisted"
  | .interviewing => "interviewing"
  | .offered => "offered"
  | .hired => "hired"
  | .rejected => "rejected"
  | .withdrawn => "withdrawn"

/-- statusHistory.updatedByModel discriminator ('User' | 'Company'). -/
inductive Actor
  | user
  | company
deriving DecidableEq, Repr

/-- One statusHistory entry (models/Application.js statusHistory subdocument). -/
structure HistoryEntry where
  status : AppStatus
  timestamp : Nat
  note : String
  updatedBy : Option Nat := none
  updatedByModel : Option Actor := none
deriving DecidableEq, Repr

/-- referralPayment.status enum. -/
inductive PayStatus
  | pending
  | processing
  | paid
  | failed
deriving DecidableEq, Repr

/-- Application.referralPayment subdocument with its schema defaults. -/
structure ReferralPayment where
  isEligible : Bool := false
  amount : Int := 0
  currency : String := "GBP"
  status : PayStatus := .pending
  paymentReference : Option String := none
deriving DecidableEq, Repr

/-- Application document (models/Application.js), business fields. -/
structure Application where
  id : Nat
  jobId : Nat
  applicantId : Nat
  companyId : Nat
  referredBy : Option Nat := none
  referralCode : Option String := none
  isReferral : Bool := false
  status : AppStatus := .pending
  statusHistory : List HistoryEntry := []
  referralPayment : ReferralPayment := {}
deriving DecidableEq, Repr

/-- User.referralStats subdocument (models/User.js) with schema defaults. -/
structure ReferralStats where
  totalReferrals : Int := 0
  successfulReferrals : Int := 0
  totalEarnings : Int := 0
  pendingEarnings : Int := 0
  paidEarnings : Int := 0
deriving DecidableEq, Repr

/-- User document (models/User.js), business fields. `referralCode` is
stored uppercase (schema uppercase: true). -/
structure User where
  id : Nat
  referralCode : String
  referralStats : ReferralStats := {}
deriving DecidableEq, Repr

/-- Job.status enum from models/Job.js. -/
inductive JobStatus
  | draft
  | active
  | paused
  | closed
  | filled
deriving DecidableEq, Repr

/-- Job.stats subdocument (counters only; views elided). -/
structure JobStats where
  applications : Int := 0
  referralApplications : Int := 0
deriving DecidableEq, Repr

/-- Job document (models/Job.js), business fields.
`applicationDeadline` is applicationSettings.applicationDeadline. -/
structure Job where
  id : Nat
  companyId : Nat
  referralFee : Int := 1000
  referralFeeCurrency : String := "GBP"
  status : JobStatus := .draft
  postedDate : Option Nat := none
  closedDate : Option Nat := none
  applicationDeadline : Option Nat := none
  stats : JobStats := {}
deriving DecidableEq, Repr

/-- Company.stats subdocument (models/Company.js), business counters. -/
structure CompanyStats where
  totalJobsPosted : Int := 0
  activeJobs : Int := 0
  totalApplications : Int := 0
  totalHires : Int := 0
deriving DecidableEq, Repr

/-- Company document, business fields. -/
structure Company where
  id : Nat
  stats : CompanyStats := {}
deriving DecidableEq, Repr

/-- The persistent store: the four MongoDB collections. -/
structure Store where
  users : List User := []
  companies : List Company := []
  jobs : List Job := []
  applications : List Application := []
deriving DecidableEq, Repr

/-- $inc of Job.stats.applications (and referralApplications when the new
application is a referral) in submitApplication. -/
def jobApplicationsInc (isReferral : Bool) (j : Job) : Job :=
  { j with stats :=
      { j.stats with
          applications := j.stats.applications + 1
          referralApplications :=
            j.stats.referralApplications + (if isReferral then 1 else 0) } }

/-- $inc of referralStats.totalReferrals in submitApplication. -/
def userTotalReferralsInc (u : User) : User :=
  { u with referralStats :=
      { u.referralStats with totalReferrals := u.referralStats.totalReferrals + 1 } }

/-- $inc of Company.stats.totalApplications in submitApplication. -/
def companyTotalApplicationsInc (c : Company) : Company :=
  { c with stats :=
      { c.stats with totalApplications := c.stats.totalApplications + 1 } }

/-- $inc of pendingEarnings and totalEarnings in processReferralPayment. -/
def userEarningsInc (fee : Int) (u : User) : User :=
  { u with referralStats :=
      { u.referralStats with
          pendingEarnings := u.referralStats.pendingEarnings + fee
          totalEarnings := u.referralStats.totalEarnings + fee } }

/-- $inc of Company.stats.totalHires in updateApplicationStatus. -/
def companyTotalHiresInc (c : Company) : Company :=
  { c with stats := { c.stats with totalHires := c.stats.totalHires + 1 } }

/-- $inc of referralStats.successfulReferrals in updateApplicationStatus. -/
def userSuccessfulReferralsInc (u : User) : User :=
  { u with referralStats :=
      { u.referralStats with
          successfulReferrals := u.referralStats.successfulReferrals + 1 } }

/-- $inc of Company.stats.activeJobs by d (used by updateJobStatus and
cleanupExpiredJobs). -/
def companyActiveJobsAdd (d : Int) (c : Company) : Company :=
  { c with stats := { c.stats with activeJobs := c.stats.activeJobs + d } }

/-- findByIdAndUpdate on a list keyed by `getId`: rewrite the records whose
id matches, leave the rest; a no-op when the id is absent. -/
def updById {α : Type} (getId : α → Nat) (i : Nat) (f : α → α) (l : List α) : List α :=
  l.map fun a => if getId a == i then f a else a

def findUser (st : Store) (i : Nat) : Option User :=
  st.users.find? fun u => u.id == i

def findCompany (st : Store) (i : Nat) : Option Company :=
  st.companies.find? fun c => c.id == i

def findJob (st : Store) (i : Nat) : Option Job :=
  st.jobs.find? fun j => j.id == i

def findApplication (st : Store) (i : Nat) : Option Application :=
  st.applications.find? fun a => a.id == i

def updateUserById (st : Store) (i : Nat) (f : User → User) : Store :=
  { st with users := updById User.id i f st.users }

def updateCompanyById (st : Store) (i : Nat) (f : Company → Company) : Store :=
  { st with companies := updById Company.id i f st.companies }

def updateJobById (st : Store) (i : Nat) (f : Job → Job) : Store :=
  { st with jobs := updById Job.id i f st.jobs }

def updateApplicationById (st : Store) (i : Nat) (f : Application → Application) : Store :=
  { st with applications := updById Application.id i f st.applications }

/-- Error responses of the embedded controllers, named by the code's error
payloads.  Correspondence with the spec's taxonomy (section 7):
`alreadyApplied` ("Already applied", 400) is DuplicateApplication;
`jobNotAccepting` ("Job not accepting applications", 400) is
JobNotAcceptingApplications; `cannotWithdraw` ("Cannot withdraw
application", 400) and `invalidStatus` ("Invalid status", 400) are
InvalidTransition; `accessDenied` (403) is Unauthorized; the NotFound
errors are NotFound. -/
inductive ApiError
  | accessDenied
  | jobNotFound
  | jobNotAccepting
  | alreadyApplied
  | applicationNotFound
  | invalidStatus
  | cannotWithdraw
deriving DecidableEq, Repr

/-- Result of a controller call. -/
inductive ApiResult (α : Type)
  | ok (a : α)
  | err (e : ApiError)
deriving DecidableEq, Repr

/-- Mongoose pre-save middleware on applicationSchema
(models/Application.js, "Pre-save middleware to update status history"),
run when `.save()` executes on a document loaded with status
`loadedStatus` (so isNew = false, and isModified('status') is
`status ≠ loadedStatus`).  The `populated('jobId')` branch that would
copy the fee is never reached from updateApplicationStatus /
withdrawApplication because those controllers load the application with
a bare findById, so jobId is not populated at save time. -/
def preSave (loadedStatus : AppStatus) (now : Nat) (app : Application) : Application :=
  let modified := app.status ≠ loadedStatus
  let app :=
    if modified then
      { app with statusHistory := app.statusHistory ++
          [{ status := app.status
             timestamp := now
             note := "Status changed to " ++ app.status.label }] }
    else app
  if modified ∧ app.status = .hired ∧ app.isReferral then
    { app with referralPayment :=
        { app.referralPayment with isEligible := true, status := .pending } }
  else app

/-- processReferralPayment (controllers/applicationController.js):
returns unchanged when the application is not a referral or has no
referrer or the job is missing; otherwise overwrites
application.referralPayment and atomically increments the referrer's
pendingEarnings and totalEarnings by the job's referralFee.  Note the
function carries no idempotency guard of its own. -/
def processReferralPayment (st : Store) (app : Application) (now : Nat) :
    Application × Store :=
  if !app.isReferral || app.referredBy.isNone then (app, st)
  else
    match findJob st app.jobId with
    | none => (app, st)
    | some job =>
      let app :=
        { app with referralPayment :=
            { isEligible := true
              amount := job.referralFee
              currency := job.referralFeeCurrency
              status := .pending
              paymentReference := some ("REF-PAY-" ++ toString now) } }
      let st :=
        match app.referredBy with
        | some r => updateUserById st r (userEarningsInc job.referralFee)
        | none => st
      (app, st)

/-- Request body of PUT /api/applications/:id/status; `companyId` is the
authenticated company (req.user._id). -/
structure UpdateStatusReq where
  companyId : Nat
  applicationId : Nat
  status : AppStatus
  note : Option String := none
deriving DecidableEq, Repr

/-- The controller's validStatuses list ('withdrawn' is not accepted on
this endpoint). -/
def validStatuses : List AppStatus :=
  [.pending, .reviewing, .shortlisted, .interviewing, .offered, .hired, .rejected]

/-- updateApplicationStatus (controllers/applicationController.js).
Validates the status string, checks ownership, mutates the loaded
document (new status plus a controller-pushed history entry crediting
the company), runs the hired-and-referral side effects
(processReferralPayment, company totalHires, referrer
successfulReferrals), then saves, which triggers `preSave`.
On success the response carries (oldStatus, newStatus). -/
def updateApplicationStatus (st : Store) (req : UpdateStatusReq) (now : Nat) :
    Store × ApiResult (AppStatus × AppStatus) :=
  if !(validStatuses.contains req.status) then (st, .err .invalidStatus)
  else
    match findApplication st req.applicationId with
    | none => (st, .err .applicationNotFound)
    | some app =>
      if app.companyId ≠ req.companyId then (st, .err .accessDenied)
      else
        let oldStatus := app.status
        let app :=
          { app with
              status := req.status
              statusHistory := app.statusHistory ++
                [{ status := req.status
                   timestamp := now
                   note := (req.note).getD ("Status changed to " ++ req.status.label)
                   updatedBy := some req.companyId
                   updatedByModel := some .company }] }
        let payload :=
          if req.status = .hired ∧ app.isReferral then
            let payload := processReferralPayment st app now
            let st := updateCompanyById payload.2 req.companyId companyTotalHiresInc
            let st :=
              match payload.1.referredBy with
              | some r => updateUserById st r userSuccessfulReferralsInc
              | none => st
            (payload.1, st)
          else (app, st)
        let app := preSave oldStatus now payload.1
        (updateApplicationById payload.2 req.applicationId fun _ => app,
         .ok (oldStatus, req.status))

/-- withdrawApplication (controllers/applicationController.js).  Only the
applicant may withdraw, and only from pending / reviewing / shortlisted;
otherwise the call fails with "Cannot withdraw application"
(spec: InvalidTransition) and mutates nothing. -/
def withdrawApplication (st : Store) (userId appId : Nat) (reason : Option String)
    (now : Nat) : Store × ApiResult Unit :=
  match findApplication st appId with
  | none => (st, .err .applicationNotFound)
  | some app =>
    if app.applicantId ≠ userId then (st, .err .accessDenied)
    else if !([AppStatus.pending, .reviewing, .shortlisted].contains app.status) then
      (st, .err .cannotWithdraw)
    else
      let oldStatus := app.status
      let app :=
        { app with
            status := .withdrawn
            statusHistory := app.statusHistory ++
              [{ status := .withdrawn
                 timestamp := now
                 note := reason.getD "Application withdrawn by applicant"
                 updatedBy := some userId
                 updatedByModel := some .user }] }
      let app := preSave oldStatus now app
      (updateApplicationById st appId fun _ => app, .ok ())

/-- JS String.prototype.toUpperCase as used on referral codes
(`referralCode.toUpperCase()`), written over the character list so it
evaluates inside proofs. -/
def upper (s : String) : String := String.mk (s.data.map Char.toUpper)

/-- Request body of POST /api/applications; `userId` is the authenticated
applicant (req.user._id).  An absent referral code is `none`
(JS: `if (referralCode)`; the empty string is falsy there, so `some ""`
also resolves to no referral). -/
structure SubmitReq where
  userId : Nat
  jobId : Nat
  referralCode : Option String := none
deriving DecidableEq, Repr

/-- Referral attribution inside submitApplication: resolve the code
case-insensitively to a user; an unknown code or the applicant's own
code silently yields no referral. -/
def resolveReferrer (st : Store) (req : SubmitReq) : Option Nat :=
  match req.referralCode with
  | none => none
  | some code =>
    if code = "" then none
    else
      match st.users.find? fun u => u.referralCode == upper code with
      | some referrer => if referrer.id ≠ req.userId then some referrer.id else none
      | none => none

/-- submitApplication (controllers/applicationController.js).  Fails when
the job is missing, not active, or the (job, applicant) pair already has
an application; on success creates the application (status pending,
empty statusHistory) and increments Job.stats.applications
(plus referralApplications when a referral), the referrer's
totalReferrals, and Company.stats.totalApplications.  `freshId` is the
id MongoDB assigns to the new document. -/
def submitApplication (st : Store) (req : SubmitReq) (freshId : Nat) (_now : Nat) :
    Store × ApiResult Application :=
  match findJob st req.jobId with
  | none => (st, .err .jobNotFound)
  | some job =>
    if job.status ≠ .active then (st, .err .jobNotAccepting)
    else if (st.applications.find? fun a =>
        a.jobId == req.jobId && a.applicantId == req.userId).isSome then
      (st, .err .alreadyApplied)
    else
      let referredBy := resolveReferrer st req
      let isReferral := referredBy.isSome
      let app : Application :=
        { id := freshId
          jobId := req.jobId
          applicantId := req.userId
          companyId := job.companyId
          referredBy := referredBy
          referralCode := if isReferral then req.referralCode.map upper else none
          isReferral := isReferral
          status := .pending
          statusHistory := []
          referralPayment := {} }
      let st := { st with applications := st.applications ++ [app] }
      let st := updateJobById st req.jobId (jobApplicationsInc isReferral)
      let st :=
        match referredBy with
        | some r => if isReferral then updateUserById st r userTotalReferralsInc else st
        | none => st
      let st := updateCompanyById st job.companyId companyTotalApplicationsInc
      (st, .ok app)

/-- createJob (controllers/jobController.js).  `reqStatus` is the raw
`status` field of the request body (`none` when the client omits it).
The job itself is created with `status: status || 'active'`, but the
company-stats update spreads `...(status === 'active' && ...)` over the
RAW request value, so activeJobs is incremented only when the client
explicitly sent "active"; the same raw test guards postedDate. -/
def createJob (st : Store) (companyId : Nat) (reqStatus : Option JobStatus)
    (referralFee : Option Int) (deadline : Option Nat) (freshId : Nat) (now : Nat) :
    Store × Nat :=
  let job : Job :=
    { id := freshId
      companyId := companyId
      referralFee := referralFee.getD 1000
      status := reqStatus.getD .active
      postedDate := if reqStatus = some .active then some now else none
      applicationDeadline := deadline }
  let st := { st with jobs := st.jobs ++ [job] }
  let st := updateCompanyById st companyId fun c =>
    { c with stats :=
        { c.stats with
            totalJobsPosted := c.stats.totalJobsPosted + 1
            activeJobs := c.stats.activeJobs +
              (if reqStatus = some .active then 1 else 0) } }
  (st, freshId)

/-- updateJob (controllers/jobController.js), the generic PUT /api/jobs/:id.
After the ownership check it applies `findByIdAndUpdate(id, {...req.body})`
verbatim; `bodyStatus` is the optional `status` field of that body (other
body fields do not touch the claims' state).  No company-stats adjustment
happens on this path even when the body changes the job's status. -/
def updateJob (st : Store) (companyId jobId : Nat) (bodyStatus : Option JobStatus) :
    Store × ApiResult Unit :=
  match findJob st jobId with
  | none => (st, .err .jobNotFound)
  | some job =>
    if job.companyId ≠ companyId then (st, .err .accessDenied)
    else
      let st := updateJobById st jobId fun j =>
        match bodyStatus with
        | some s => { j with status := s }
        | none => j
      (st, .ok ())

/-- updateJobStatus (controllers/jobController.js), PUT /api/jobs/:id/status.
Sets the status (plus postedDate / closedDate bookkeeping) and adjusts
Company.stats.activeJobs by +1 / -1 on transitions into / out of
`active`.  The JS string validation accepts exactly the five JobStatus
values, which the type already guarantees. -/
def updateJobStatus (st : Store) (companyId jobId : Nat) (newStatus : JobStatus)
    (now : Nat) : Store × ApiResult (JobStatus × JobStatus) :=
  match findJob st jobId with
  | none => (st, .err .jobNotFound)
  | some job =>
    if job.companyId ≠ companyId then (st, .err .accessDenied)
    else
      let oldStatus := job.status
      let job :=
        { job with
            status := newStatus
            postedDate :=
              if newStatus = .active ∧ oldStatus = .draft then some now
              else job.postedDate
            closedDate :=
              if newStatus = .closed ∨ newStatus = .filled then some now
              else job.closedDate }
      let st := updateJobById st jobId fun _ => job
      let st :=
        if newStatus = .active ∧ oldStatus ≠ .active then
          updateCompanyById st companyId (companyActiveJobsAdd 1)
        else if newStatus ≠ .active ∧ oldStatus = .active then
          updateCompanyById st companyId (companyActiveJobsAdd (-1))
        else st
      (st, .ok (oldStatus, newStatus))

/-- Deadline predicate of cleanupExpiredJobs: status active and
applicationSettings.applicationDeadline strictly before `now`. -/
def jobExpired (now : Nat) (j : Job) : Bool :=
  j.status == .active &&
    (match j.applicationDeadline with
     | some d => decide (d < now)
     | none => false)

/-- cleanupExpiredJobs (controllers/jobController.js): the background
sweep.  It finds the expired active jobs, closes them all (updateMany
with the same filter), then decrements the owning company's activeJobs
once per expired job. -/
def cleanupExpiredJobs (st : Store) (now : Nat) : Store :=
  let expired := st.jobs.filter (jobExpired now)
  let st :=
    { st with jobs := st.jobs.map fun j =>
        if jobExpired now j then { j with status := .closed, closedDate := some now }
        else j }
  expired.foldl
    (fun st j => updateCompanyById st j.companyId (companyActiveJobsAdd (-1)))
    st

/-- User.updateReferralStats types ('add_referral', 'successful_referral',
'payment_processed') from models/User.js. -/
inductive StatsUpdateType
  | addReferral
  | successfulReferral
  | paymentProcessed
deriving DecidableEq, Repr

/-- userSchema.methods.updateReferralStats (models/User.js): the payout
path 'payment_processed' moves `amount` from pendingEarnings to
paidEarnings; 'successful_referral' accrues earnings at hire time. -/
def updateReferralStats (s : ReferralStats) (t : StatsUpdateType) (amount : Int) :
    ReferralStats :=
  match t with
  | .addReferral => { s with totalReferrals := s.totalReferrals + 1 }
  | .successfulReferral =>
    { s with
        successfulReferrals := s.successfulReferrals + 1
        pendingEarnings := s.pendingEarnings + amount
        totalEarnings := s.totalEarnings + amount }
  | .paymentProcessed =>
    { s with
        pendingEarnings := s.pendingEarnings - amount
        paidEarnings := s.paidEarnings + amount }

/-- Applying updateReferralStats to a stored user (user.save()). -/
def applyStatsUpdate (st : Store) (userId : Nat) (t : StatsUpdateType) (amount : Int) :
    Store :=
  updateUserById st userId fun u =>
    { u with referralStats := updateReferralStats u.referralStats t amount }

/-- One system-level operation of the Application/payment lifecycle, for
sequence-invariant claims: the three application-controller entry points
plus the payout step User.updateReferralStats('payment_processed'). -/
inductive SysOp
  | submit (req : SubmitReq) (freshId : Nat) (now : Nat)
  | updateStatus (req : UpdateStatusReq) (now : Nat)
  | withdraw (userId appId : Nat) (reason : Option String) (now : Nat)
  | payout (userId : Nat) (amount : Int)

/-- Run one system operation, keeping only the resulting store. -/
def applySysOp (st : Store) (op : SysOp) : Store :=
  match op with
  | .submit req freshId now => (submitApplication st req freshId now).1
  | .updateStatus req now => (updateApplicationStatus st req now).1
  | .withdraw userId appId reason now => (withdrawApplication st userId appId reason now).1
  | .payout userId amount => applyStatsUpdate st userId .paymentProcessed amount

/-- Run a sequence of system operations. -/
def applySysOps (st : Store) (ops : List SysOp) : Store :=
  ops.foldl applySysOp st

/-- The earnings invariant of a single stats record:
totalEarnings = pendingEarnings + paidEarnings. -/
def earnInv (s : ReferralStats) : Prop :=
  s.totalEarnings = s.pendingEarnings + s.paidEarnings

instance (s : ReferralStats) : Decidable (earnInv s) := by
  unfold earnInv
  infer_instance

/-- The earnings invariant for every user in the store. -/
def allEarnInv (st : Store) : Prop :=
  ∀ u ∈ st.users, earnInv u.referralStats

instance (st : Store) : Decidable (allEarnInv st) := by
  unfold allEarnInv
  infer_instance

/-! ### Lookup / update interplay lemmas -/

/-- Looking up the updated id after `updById` sees the update, provided the
update keeps matching records' ids. -/
theorem find?_updById_self {α : Type} (getId : α → Nat) (i : Nat) (f : α → α)
    (l : List α) (hf : ∀ a, getId a = i → getId (f a) = i) :
    (updById getId i f l).find? (fun a => getId a == i) =
      (l.find? (fun a => getId a == i)).map f := by
  induction l with
  | nil => rfl
  | cons a t ih =>
    by_cases h : getId a = i
    · simp [updById, List.find?_cons, h, hf a h]
    · simpa [updById, List.find?_cons, h] using ih

/-- Looking up a different id after `updById` sees the original list,
provided the update keeps matching records' ids. -/
theorem find?_updById_other {α : Type} (getId : α → Nat) (i j : Nat) (f : α → α)
    (l : List α) (hf : ∀ a, getId a = i → getId (f a) = i) (hij : i ≠ j) :
    (updById getId i f l).find? (fun a => getId a == j) =
      l.find? (fun a => getId a == j) := by
  induction l with
  | nil => rfl
  | cons a t ih =>
    by_cases h : getId a = i
    · have hfj : getId (f a) ≠ j := by rw [hf a h]; exact hij
      simpa [updById, List.find?_cons, h, hfj, hij] using ih
    · by_cases hj : getId a = j
      · have hji : ¬(j = i) := fun e => h (hj.trans e)
        simp [updById, List.find?_cons, h, hj, hji]
      · simpa [updById, List.find?_cons, h, hj] using ih

/-- `findUser` after `updateUserById` at the same id. -/
theorem findUser_updateUserById_self (st : Store) (i : Nat) (f : User → User)
    (hf : ∀ u, (f u).id = u.id) :
    findUser (updateUserById st i f) i = (findUser st i).map f :=
  find?_updById_self User.id i f st.users fun a ha => (hf a).trans ha

/-- `findCompany` after `updateCompanyById` at the same id. -/
theorem findCompany_updateCompanyById_self (st : Store) (i : Nat) (f : Company → Company)
    (hf : ∀ c, (f c).id = c.id) :
    findCompany (updateCompanyById st i f) i = (findCompany st i).map f :=
  find?_updById_self Company.id i f st.companies fun a ha => (hf a).trans ha

/-- `findJob` after `updateJobById` at the same id. -/
theorem findJob_updateJobById_self (st : Store) (i : Nat) (f : Job → Job)
    (hf : ∀ j, (f j).id = j.id) :
    findJob (updateJobById st i f) i = (findJob st i).map f :=
  find?_updById_self Job.id i f st.jobs fun a ha => (hf a).trans ha

/-- `findApplication` after `updateApplicationById` at the same id; the
hypothesis admits the constant rewriting done by `.save()`. -/
theorem findApplication_updateApplicationById_self (st : Store) (i : Nat)
    (f : Application → Application) (hf : ∀ a, a.id = i → (f a).id = i) :
    findApplication (updateApplicationById st i f) i = (findApplication st i).map f :=
  find?_updById_self Application.id i f st.applications hf

/-- Updating companies leaves user lookups unchanged. -/
theorem findUser_updateCompanyById (st : Store) (i : Nat) (f : Company → Company)
    (j : Nat) : findUser (updateCompanyById st i f) j = findUser st j := rfl

/-- Updating jobs leaves user lookups unchanged. -/
theorem findUser_updateJobById (st : Store) (i : Nat) (f : Job → Job) (j : Nat) :
    findUser (updateJobById st i f) j = findUser st j := rfl

/-- Updating applications leaves user lookups unchanged. -/
theorem findUser_updateApplicationById (st : Store) (i : Nat)
    (f : Application → Application) (j : Nat) :
    findUser (updateApplicationById st i f) j = findUser st j := rfl

/-- Updating users leaves company lookups unchanged. -/
theorem findCompany_updateUserById (st : Store) (i : Nat) (f : User → User) (j : Nat) :
    findCompany (updateUserById st i f) j = findCompany st j := rfl

/-- Updating jobs leaves company lookups unchanged. -/
theorem findCompany_updateJobById (st : Store) (i : Nat) (f : Job → Job) (j : Nat) :
    findCompany (updateJobById st i f) j = findCompany st j := rfl

/-- Updating applications leaves company lookups unchanged. -/
theorem findCompany_updateApplicationById (st : Store) (i : Nat)
    (f : Application → Application) (j : Nat) :
    findCompany (updateApplicationById st i f) j = findCompany st j := rfl

/-- Updating users leaves job lookups unchanged. -/
theorem findJob_updateUserById (st : Store) (i : Nat) (f : User → User) (j : Nat) :
    findJob (updateUserById st i f) j = findJob st j := rfl

/-- Updating companies leaves job lookups unchanged. -/
theorem findJob_updateCompanyById (st : Store) (i : Nat) (f : Company → Company)
    (j : Nat) : findJob (updateCompanyById st i f) j = findJob st j := rfl

/-- Updating applications leaves job lookups unchanged. -/
theorem findJob_updateApplicationById (st : Store) (i : Nat)
    (f : Application → Application) (j : Nat) :
    findJob (updateApplicationById st i f) j = findJob st j := rfl

/-- Updating users leaves application lookups unchanged. -/
theorem findApplication_updateUserById (st : Store) (i : Nat) (f : User → User)
    (j : Nat) : findApplication (updateUserById st i f) j = findApplication st j := rfl

/-- Updating companies leaves application lookups unchanged. -/
theorem findApplication_updateCompanyById (st : Store) (i : Nat)
    (f : Company → Company) (j : Nat) :
    findApplication (updateCompanyById st i f) j = findApplication st j := rfl

/-- Updating jobs leaves application lookups unchanged. -/
theorem findApplication_updateJobById (st : Store) (i : Nat) (f : Job → Job) (j : Nat) :
    findApplication (updateJobById st i f) j = findApplication st j := rfl

/-- The earnings $inc is visible through the lookup. -/
theorem findUser_userEarningsInc (st : Store) (i : Nat) (fee : Int) :
    findUser (updateUserById st i (userEarningsInc fee)) i =
      (findUser st i).map (userEarningsInc fee) :=
  findUser_updateUserById_self st i _ fun _ => rfl

/-- The totalReferrals $inc is visible through the lookup. -/
theorem findUser_userTotalReferralsInc (st : Store) (i : Nat) :
    findUser (updateUserById st i userTotalReferralsInc) i =
      (findUser st i).map userTotalReferralsInc :=
  findUser_updateUserById_self st i _ fun _ => rfl

/-- The successfulReferrals $inc is visible through the lookup. -/
theorem findUser_userSuccessfulReferralsInc (st : Store) (i : Nat) :
    findUser (updateUserById st i userSuccessfulReferralsInc) i =
      (findUser st i).map userSuccessfulReferralsInc :=
  findUser_updateUserById_self st i _ fun _ => rfl

/-- The totalApplications $inc is visible through the lookup. -/
theorem findCompany_companyTotalApplicationsInc (st : Store) (i : Nat) :
    findCompany (updateCompanyById st i companyTotalApplicationsInc) i =
      (findCompany st i).map companyTotalApplicationsInc :=
  findCompany_updateCompanyById_self st i _ fun _ => rfl

/-- The totalHires $inc is visible through the lookup. -/
theorem findCompany_companyTotalHiresInc (st : Store) (i : Nat) :
    findCompany (updateCompanyById st i companyTotalHiresInc) i =
      (findCompany st i).map companyTotalHiresInc :=
  findCompany_updateCompanyById_self st i _ fun _ => rfl

/-- The activeJobs $inc is visible through the lookup. -/
theorem findCompany_companyActiveJobsAdd (st : Store) (i : Nat) (d : Int) :
    findCompany (updateCompanyById st i (companyActiveJobsAdd d)) i =
      (findCompany st i).map (companyActiveJobsAdd d) :=
  findCompany_updateCompanyById_self st i _ fun _ => rfl

/-- The job-stats $inc is visible through the lookup. -/
theorem findJob_jobApplicationsInc (st : Store) (i : Nat) (b : Bool) :
    findJob (updateJobById st i (jobApplicationsInc b)) i =
      (findJob st i).map (jobApplicationsInc b) :=
  findJob_updateJobById_self st i _ fun _ => rfl

/-- Appending applications leaves job lookups unchanged. -/
theorem findJob_withApplications (st : Store) (x : List Application) (j : Nat) :
    findJob { st with applications := x } j = findJob st j := rfl

/-- Appending applications leaves user lookups unchanged. -/
theorem findUser_withApplications (st : Store) (x : List Application) (j : Nat) :
    findUser { st with applications := x } j = findUser st j := rfl

/-- Appending applications leaves company lookups unchanged. -/
theorem findCompany_withApplications (st : Store) (x : List Application) (j : Nat) :
    findCompany { st with applications := x } j = findCompany st j := rfl

/-! ### Concrete fixtures for the code-bug claims -/

/-- Fixture for the terminal-state claim: one company owning one active
job, and an application for it that has already reached `hired`. -/
def storeTerminal : Store :=
  { users := [{ id := 2, referralCode := "REF-BOB-000001" }]
    companies := [{ id := 10 }]
    jobs := [{ id := 100, companyId := 10, status := .active }]
    applications :=
      [{ id := 5, jobId := 100, applicantId := 2, companyId := 10, status := .hired }] }

/-- Fixture for the double-payment claim: a referrer (user 1), an
applicant (user 2), a job with referralFee 1000, and a referred
application that has reached `hired`. -/
def storeDoublePay : Store :=
  { users :=
      [{ id := 1, referralCode := "REF-ANA-000001" },
       { id := 2, referralCode := "REF-BOB-000002" }]
    companies := [{ id := 10 }]
    jobs := [{ id := 100, companyId := 10, referralFee := 1000, status := .active }]
    applications :=
      [{ id := 5, jobId := 100, applicantId := 2, companyId := 10
         referredBy := some 1, isReferral := true, status := .hired }] }

/-- The hired referred application of `storeDoublePay`. -/
def appDoublePay : Application :=
  { id := 5, jobId := 100, applicantId := 2, companyId := 10
    referredBy := some 1, isReferral := true, status := .hired }

/-- Fixture for the activeJobs claim: a single company with all counters
at zero and no jobs yet. -/
def storeOneCompany : Store :=
  { companies := [{ id := 10 }] }

/-- C1. The claim says a status-update call on a terminal application
(hired / rejected / withdrawn) fails with InvalidTransition, leaves the
status unchanged and appends nothing to statusHistory.  The code has the
guard `canBeUpdatedByCompany` on the model but updateApplicationStatus
never calls it: on an application already `hired`, the owning company's
update to `reviewing` succeeds, the status changes, and statusHistory
gains two entries. -/
theorem c1_terminal_guard_missing :
    (updateApplicationStatus storeTerminal
        { companyId := 10, applicationId := 5, status := .reviewing } 7).2 =
      .ok (.hired, .reviewing) ∧
    ((updateApplicationStatus storeTerminal
        { companyId := 10, applicationId := 5, status := .reviewing } 7).1.applications.map
      fun a => (a.status, a.statusHistory.length)) = [(.reviewing, 2)] := by
  decide

/-- C2. The claim says invoking processReferralPayment twice for the same
application increments the referrer's pendingEarnings / totalEarnings by
the fee exactly once in total.  The function has no idempotency guard:
the first call brings the referrer from 0 to 1000, and the second call
(replaying on the state the first produced) brings them to 2000. -/
theorem c2_double_payment :
    (findUser (processReferralPayment storeDoublePay appDoublePay 3).2 1).map
        (fun u => (u.referralStats.pendingEarnings, u.referralStats.totalEarnings)) =
      some (1000, 1000) ∧
    (findUser
        (processReferralPayment
          (processReferralPayment storeDoublePay appDoublePay 3).2
          (processReferralPayment storeDoublePay appDoublePay 3).1 4).2 1).map
        (fun u => (u.referralStats.pendingEarnings, u.referralStats.totalEarnings)) =
      some (2000, 2000) := by
  decide

/-- C4. The claim says Company.stats.activeJobs always equals the number
of the company's jobs with status active after any sequence of job
operations.  A single createJob whose request body omits `status`
already breaks it: the job is created with status `active` (the
`status || 'active'` default) but the stats increment tests the RAW
request value (`status === 'active'`), so activeJobs stays 0 while the
company owns one active job. -/
theorem c4_activeJobs_drift :
    ((createJob storeOneCompany 10 none none none 100 0).1.jobs.filter
        (fun j => j.companyId == 10 && j.status == .active)).length = 1 ∧
    (findCompany (createJob storeOneCompany 10 none none none 100 0).1 10).map
        (fun c => c.stats.activeJobs) = some 0 := by
  decide

/-! ### C6: duplicate submission -/

/-- Fixture for the duplicate-submission claim: user 2 already has an
application (id 5) for job 100. -/
def storeDup : Store :=
  { users := [{ id := 1, referralCode := "REF-ANA-000001" }]
    companies := [{ id := 10 }]
    jobs := [{ id := 100, companyId := 10, status := .active }]
    applications := [{ id := 5, jobId := 100, applicantId := 2, companyId := 10 }] }

/-- C6. A second submitApplication for a (job, applicant) pair that
already has an application fails with "Already applied" (the spec's
DuplicateApplication) and returns the store verbatim, so every Job,
Company, and User counter keeps the value it had after the first
submission. -/
theorem c6_duplicate_application (st : Store) (req : SubmitReq) (freshId now : Nat)
    (job : Job) (hj : findJob st req.jobId = some job) (hact : job.status = .active)
    (hdup : (st.applications.find? fun a =>
        a.jobId == req.jobId && a.applicantId == req.userId).isSome = true) :
    submitApplication st req freshId now = (st, .err .alreadyApplied) := by
  unfold submitApplication
  rw [hj]
  simp [hact, hdup]

/-- Witness: the duplicate submission in `storeDup` is rejected and the
store is untouched. -/
theorem c6_duplicate_application_witness :
    submitApplication storeDup { userId := 2, jobId := 100 } 9 1 =
      (storeDup, .err .alreadyApplied) :=
  c6_duplicate_application storeDup { userId := 2, jobId := 100 } 9 1
    { id := 100, companyId := 10, status := .active }
    (by decide) (by decide) (by decide)

/-! ### C7: self-referral is neutralised -/

/-- Fixture for the self-referral claim: user 2 owns code
REF-BOB-000002 and applies to job 100 supplying that same code. -/
def storeSelfRef : Store :=
  { users :=
      [{ id := 1, referralCode := "REF-ANA-000001" },
       { id := 2, referralCode := "REF-BOB-000002" }]
    companies := [{ id := 10 }]
    jobs := [{ id := 100, companyId := 10, status := .active }] }

/-- C7.  When the supplied referral code resolves to the applicant
themself, the application is created with isReferral = false and
referredBy = none, the users collection (hence every referrer counter)
is untouched, and the job gains a plain application
(referralApplications not incremented). -/
theorem c7_self_referral (st : Store) (userId jobId : Nat) (code : String)
    (freshId now : Nat) (job : Job)
    (hj : findJob st jobId = some job) (hact : job.status = .active)
    (hdup : (st.applications.find? fun a =>
        a.jobId == jobId && a.applicantId == userId).isSome = false)
    (hne : code ≠ "")
    (hself : (st.users.find? fun u => u.referralCode == upper code).map User.id =
      some userId) :
    (submitApplication st { userId := userId, jobId := jobId, referralCode := some code }
        freshId now).2 =
      .ok { id := freshId, jobId := jobId, applicantId := userId
            companyId := job.companyId } ∧
    (submitApplication st { userId := userId, jobId := jobId, referralCode := some code }
        freshId now).1.users = st.users ∧
    findJob (submitApplication st
        { userId := userId, jobId := jobId, referralCode := some code } freshId now).1
        jobId =
      some { job with stats :=
        { job.stats with applications := job.stats.applications + 1 } } := by
  obtain ⟨self, hfind, hid⟩ : ∃ self,
      (st.users.find? fun u => u.referralCode == upper code) = some self ∧
        self.id = userId := by
    cases hfound : st.users.find? fun u => u.referralCode == upper code with
    | none => rw [hfound] at hself; simp at hself
    | some s =>
      rw [hfound] at hself
      exact ⟨s, rfl, by simpa using hself⟩
  have hres : resolveReferrer st
      { userId := userId, jobId := jobId, referralCode := some code } = none := by
    simp [resolveReferrer, hne, hfind, hid]
  refine ⟨?_, ?_, ?_⟩
  · unfold submitApplication
    rw [hj]
    simp [hact, hdup, hres]
  · unfold submitApplication
    rw [hj]
    simp [hact, hdup, hres, updateCompanyById, updateJobById, updById]
  · unfold submitApplication
    rw [hj]
    simp [hact, hdup, hres, findJob_updateCompanyById, findJob_jobApplicationsInc,
          findJob_withApplications, hj, jobApplicationsInc]

/-- Witness: in `storeSelfRef`, user 2 applying with their own code gets a
non-referral application, the users collection is untouched, and the job
counts one plain application. -/
theorem c7_self_referral_witness :
    (submitApplication storeSelfRef
        { userId := 2, jobId := 100, referralCode := some "REF-BOB-000002" } 9 1).2 =
      .ok { id := 9, jobId := 100, applicantId := 2, companyId := 10 } ∧
    (submitApplication storeSelfRef
        { userId := 2, jobId := 100, referralCode := some "REF-BOB-000002" } 9 1).1.users =
      storeSelfRef.users ∧
    findJob (submitApplication storeSelfRef
        { userId := 2, jobId := 100, referralCode := some "REF-BOB-000002" } 9 1).1 100 =
      some { id := 100, companyId := 10, status := .active
             stats := { applications := 1 } } :=
  c7_self_referral storeSelfRef 2 100 "REF-BOB-000002" 9 1
    { id := 100, companyId := 10, status := .active }
    (by decide) rfl (by decide) (by decide) (by decide)

/-! ### C8 and C10: withdrawal -/

/-- Fixture for the withdrawal claims: a pending application (id 5) by
user 2 for company 10's job 100, with some counters already nonzero. -/
def storeWithdraw : Store :=
  { users :=
      [{ id := 1, referralCode := "REF-ANA-000001"
         referralStats := { totalReferrals := 1 } },
       { id := 2, referralCode := "REF-BOB-000002" }]
    companies := [{ id := 10, stats := { totalApplications := 1 } }]
    jobs := [{ id := 100, companyId := 10, status := .active
               stats := { applications := 1, referralApplications := 1 } }]
    applications :=
      [{ id := 5, jobId := 100, applicantId := 2, companyId := 10
         referredBy := some 1, isReferral := true }] }

/-- C8.  The withdraw operation succeeds exactly when the caller is the
applicant and the status is pending / reviewing / shortlisted; when the
caller is the applicant but the application is already withdrawn the
call fails with "Cannot withdraw application" (the spec's
InvalidTransition) and the store is returned verbatim; and a successful
withdrawal sets the status to withdrawn and appends to statusHistory
(the controller entry plus the pre-save middleware entry). -/
theorem c8_withdraw_iff (st : Store) (uid appId : Nat) (reason : Option String)
    (now : Nat) (app : Application) (ha : findApplication st appId = some app) :
    ((withdrawApplication st uid appId reason now).2 = .ok () ↔
      app.applicantId = uid ∧
        (app.status = .pending ∨ app.status = .reviewing ∨ app.status = .shortlisted)) ∧
    (app.applicantId = uid → app.status = .withdrawn →
      withdrawApplication st uid appId reason now = (st, .err .cannotWithdraw)) ∧
    (app.applicantId = uid →
      (app.status = .pending ∨ app.status = .reviewing ∨ app.status = .shortlisted) →
      (findApplication (withdrawApplication st uid appId reason now).1 appId).map
          (fun a => (a.status, a.statusHistory.length)) =
        some (.withdrawn, app.statusHistory.length + 2)) := by
  have hid : app.id = appId := by
    have h := List.find?_some (by simpa [findApplication] using ha)
    simpa using h
  unfold withdrawApplication
  rw [ha]
  by_cases hu : app.applicantId = uid
  · by_cases hs : app.status = .pending ∨ app.status = .reviewing ∨
        app.status = .shortlisted
    · have hc : ([AppStatus.pending, .reviewing, .shortlisted].contains app.status) =
          true := by
        rcases hs with h | h | h <;> simp [h]
      have hnw : AppStatus.withdrawn ≠ app.status := by
        rcases hs with h | h | h <;> simp [h]
      refine ⟨?_, ?_, ?_⟩
      · simp [hu, hc, hs]
      · intro _ hw
        rcases hs with h | h | h <;> rw [h] at hw <;> cases hw
      · intro _ _
        simp only [hu, hc]
        rw [if_neg (by simp), if_neg (by simp)]
        rw [findApplication_updateApplicationById_self _ _ _ fun a _ => by
          simp [preSave, hnw, hid]]
        rw [ha]
        simp [preSave, hnw]
    · have hc : ([AppStatus.pending, .reviewing, .shortlisted].contains app.status) =
          false := by
        cases h : app.status <;> simp_all
      have hs3 : ¬app.status = AppStatus.pending ∧ ¬app.status = AppStatus.reviewing ∧
          ¬app.status = AppStatus.shortlisted := by
        push_neg at hs
        exact hs
      refine ⟨?_, ?_, ?_⟩
      · simp [hu, hc, hs]
      · intro _ _
        simp [hu, hs3.1, hs3.2.1, hs3.2.2]
      · intro _ hs2
        exact absurd hs2 hs
  · refine ⟨?_, ?_, ?_⟩
    · simp [hu]
    · intro hu2
      exact absurd hu2 hu
    · intro hu2
      exact absurd hu2 hu

/-- Witness: in `storeWithdraw` the applicant's withdrawal of the pending
application succeeds, sets withdrawn, and appends two history entries. -/
theorem c8_withdraw_iff_witness :
    (withdrawApplication storeWithdraw 2 5 none 3).2 = .ok () ∧
    (findApplication (withdrawApplication storeWithdraw 2 5 none 3).1 5).map
        (fun a => (a.status, a.statusHistory.length)) = some (.withdrawn, 2) := by
  have h := c8_withdraw_iff storeWithdraw 2 5 none 3
    { id := 5, jobId := 100, applicantId := 2, companyId := 10
      referredBy := some 1, isReferral := true } (by decide)
  exact ⟨h.1.mpr ⟨rfl, Or.inl rfl⟩, h.2.2 rfl (Or.inl rfl)⟩

/-- C10.  A successful withdrawal rewrites only the application: the
jobs, companies, and users collections (hence Job.stats,
Company.stats.totalApplications, and the referrer's
referralStats.totalReferrals) are exactly what they were before. -/
theorem c10_withdraw_frame (st : Store) (uid appId : Nat) (reason : Option String)
    (now : Nat) (app : Application)
    (ha : findApplication st appId = some app)
    (hu : app.applicantId = uid)
    (hs : app.status = .pending ∨ app.status = .reviewing ∨ app.status = .shortlisted) :
    (withdrawApplication st uid appId reason now).1.jobs = st.jobs ∧
    (withdrawApplication st uid appId reason now).1.companies = st.companies ∧
    (withdrawApplication st uid appId reason now).1.users = st.users := by
  unfold withdrawApplication
  rw [ha]
  rcases hs with h | h | h <;> simp [hu, h, updateApplicationById]

/-- Witness: the withdrawal of `c8_withdraw_iff_witness` leaves jobs,
companies and users untouched. -/
theorem c10_withdraw_frame_witness :
    (withdrawApplication storeWithdraw 2 5 none 3).1.jobs = storeWithdraw.jobs ∧
    (withdrawApplication storeWithdraw 2 5 none 3).1.companies =
      storeWithdraw.companies ∧
    (withdrawApplication storeWithdraw 2 5 none 3).1.users = storeWithdraw.users :=
  c10_withdraw_frame storeWithdraw 2 5 none 3
    { id := 5, jobId := 100, applicantId := 2, companyId := 10
      referredBy := some 1, isReferral := true }
    (by decide) rfl (Or.inl rfl)

/-! ### C9: the double statusHistory push -/

/-- The pre-save middleware never changes the document id. -/
theorem preSave_id (l : AppStatus) (n : Nat) (a : Application) :
    (preSave l n a).id = a.id := by
  unfold preSave
  dsimp only
  split <;> split <;> rfl

/-- When the save changes the status, the pre-save middleware appends
exactly one actorless history entry. -/
theorem preSave_statusHistory (l : AppStatus) (n : Nat) (a : Application)
    (h : a.status ≠ l) :
    (preSave l n a).statusHistory = a.statusHistory ++
      [{ status := a.status, timestamp := n
         note := "Status changed to " ++ a.status.label }] := by
  unfold preSave
  dsimp only
  rw [if_pos h]
  split <;> rfl

/-- processReferralPayment leaves id, status, statusHistory, isReferral
and referredBy of the document unchanged. -/
theorem processReferralPayment_doc (st : Store) (app : Application) (now : Nat) :
    (processReferralPayment st app now).1.id = app.id ∧
    (processReferralPayment st app now).1.status = app.status ∧
    (processReferralPayment st app now).1.statusHistory = app.statusHistory ∧
    (processReferralPayment st app now).1.isReferral = app.isReferral ∧
    (processReferralPayment st app now).1.referredBy = app.referredBy := by
  unfold processReferralPayment
  split
  · exact ⟨rfl, rfl, rfl, rfl, rfl⟩
  · split
    · exact ⟨rfl, rfl, rfl, rfl, rfl⟩
    · exact ⟨rfl, rfl, rfl, rfl, rfl⟩

/-- processReferralPayment touches only the users collection of the
store. -/
theorem processReferralPayment_store (st : Store) (app : Application) (now : Nat) :
    (processReferralPayment st app now).2.applications = st.applications ∧
    (processReferralPayment st app now).2.jobs = st.jobs ∧
    (processReferralPayment st app now).2.companies = st.companies := by
  unfold processReferralPayment
  dsimp only
  split
  · exact ⟨rfl, rfl, rfl⟩
  · split
    · exact ⟨rfl, rfl, rfl⟩
    · split
      · exact ⟨rfl, rfl, rfl⟩
      · exact ⟨rfl, rfl, rfl⟩

/-- Equal applications lists give equal application lookups. -/
theorem findApplication_congr (st1 st2 : Store) (i : Nat)
    (h : st1.applications = st2.applications) :
    findApplication st1 i = findApplication st2 i := by
  unfold findApplication
  rw [h]

/-- C9.  Every successful company-driven status update that changes the
status appends exactly two history entries for the one transition: the
controller's entry crediting the acting company, then the pre-save
middleware's actorless entry. -/
theorem c9_double_history (st : Store) (aid : Nat) (app : Application)
    (s : AppStatus) (note : Option String) (now : Nat)
    (ha : findApplication st aid = some app)
    (hv : s ∈ validStatuses)
    (hch : s ≠ app.status) :
    (updateApplicationStatus st
        { companyId := app.companyId, applicationId := aid, status := s, note := note }
        now).2 = .ok (app.status, s) ∧
    (findApplication (updateApplicationStatus st
        { companyId := app.companyId, applicationId := aid, status := s, note := note }
        now).1 aid).map (fun a => a.statusHistory) =
      some (app.statusHistory ++
        [{ status := s, timestamp := now
           note := note.getD ("Status changed to " ++ s.label)
           updatedBy := some app.companyId, updatedByModel := some Actor.company },
         { status := s, timestamp := now
           note := "Status changed to " ++ s.label }]) := by
  have hid : app.id = aid := by
    have h := List.find?_some (by simpa [findApplication] using ha)
    simpa using h
  unfold updateApplicationStatus
  rw [if_neg (by simpa using hv), ha]
  dsimp only
  rw [if_neg (fun hcc : app.companyId ≠ app.companyId => hcc rfl)]
  dsimp only
  refine ⟨rfl, ?_⟩
  by_cases hh : s = AppStatus.hired ∧ app.isReferral = true
  · obtain ⟨hsh, href⟩ := hh
    subst hsh
    rw [if_pos ⟨rfl, href⟩]
    dsimp only
    cases hrb : app.referredBy with
    | none =>
      simp only [processReferralPayment, href, hrb, Option.isNone_none, Bool.not_true,
        Bool.false_or, eq_self_iff_true, if_true]
      rw [findApplication_updateApplicationById_self _ _ _ fun a _ => by
        rw [preSave_id]; exact hid]
      rw [findApplication_updateCompanyById, ha]
      simp [preSave_statusHistory, hch]
    | some r =>
      cases hjob : findJob st app.jobId with
      | none =>
        simp only [processReferralPayment, href, hrb, hjob, Option.isNone_some,
          Bool.not_true, Bool.false_or, Bool.false_eq_true, if_false]
        rw [findApplication_updateApplicationById_self _ _ _ fun a _ => by
          rw [preSave_id]; exact hid]
        rw [findApplication_updateUserById, findApplication_updateCompanyById, ha]
        simp [preSave_statusHistory, hch]
      | some job =>
        simp only [processReferralPayment, href, hrb, hjob, Option.isNone_some,
          Bool.not_true, Bool.false_or, Bool.false_eq_true, if_false]
        rw [findApplication_updateApplicationById_self _ _ _ fun a _ => by
          rw [preSave_id]; exact hid]
        rw [findApplication_updateUserById, findApplication_updateCompanyById,
          findApplication_updateUserById, ha]
        simp [preSave_statusHistory, hch]
  · rw [if_neg hh]
    dsimp only
    rw [findApplication_updateApplicationById_self _ _ _ fun a _ => by
      rw [preSave_id]; exact hid]
    rw [ha]
    simp [preSave_statusHistory, hch]

/-- Witness: moving the pending application of `storeWithdraw` to
reviewing yields exactly the controller entry (actor company 10) and the
middleware entry (no actor). -/
theorem c9_double_history_witness :
    (updateApplicationStatus storeWithdraw
        { companyId := 10, applicationId := 5, status := .reviewing, note := none }
        4).2 = .ok (.pending, .reviewing) ∧
    (findApplication (updateApplicationStatus storeWithdraw
        { companyId := 10, applicationId := 5, status := .reviewing, note := none }
        4).1 5).map (fun a => a.statusHistory) =
      some [{ status := .reviewing, timestamp := 4
              note := "Status changed to reviewing"
              updatedBy := some 10, updatedByModel := some .company },
            { status := .reviewing, timestamp := 4
              note := "Status changed to reviewing" }] :=
  c9_double_history storeWithdraw 5
    { id := 5, jobId := 100, applicantId := 2, companyId := 10
      referredBy := some 1, isReferral := true }
    .reviewing none 4 (by decide) (by decide) (by decide)

/-! ### C3: the hire side effects on a referred application -/

/-- C3.  When the owning company moves a referred application (with a
referrer and an existing job) to hired, the stored application's
referralPayment becomes eligible for the job's referralFee with status
pending, the referrer gains the fee on pendingEarnings and
totalEarnings and one successfulReferral, and the company gains one
totalHire. -/
theorem c3_hire_referral_effects (st : Store) (aid r : Nat) (app : Application)
    (job : Job) (u : User) (c : Company) (note : Option String) (now : Nat)
    (ha : findApplication st aid = some app)
    (href : app.isReferral = true)
    (hrb : app.referredBy = some r)
    (hjob : findJob st app.jobId = some job)
    (huser : findUser st r = some u)
    (hcomp : findCompany st app.companyId = some c)
    (hold : app.status ≠ .hired) :
    (updateApplicationStatus st
        { companyId := app.companyId, applicationId := aid, status := .hired
          note := note } now).2 = .ok (app.status, .hired) ∧
    (findApplication (updateApplicationStatus st
        { companyId := app.companyId, applicationId := aid, status := .hired
          note := note } now).1 aid).map
        (fun a => (a.referralPayment.isEligible, a.referralPayment.amount,
          a.referralPayment.status)) =
      some (true, job.referralFee, PayStatus.pending) ∧
    findUser (updateApplicationStatus st
        { companyId := app.companyId, applicationId := aid, status := .hired
          note := note } now).1 r =
      some { u with referralStats :=
        { u.referralStats with
            successfulReferrals := u.referralStats.successfulReferrals + 1
            pendingEarnings := u.referralStats.pendingEarnings + job.referralFee
            totalEarnings := u.referralStats.totalEarnings + job.referralFee } } ∧
    findCompany (updateApplicationStatus st
        { companyId := app.companyId, applicationId := aid, status := .hired
          note := note } now).1 app.companyId =
      some { c with stats :=
        { c.stats with totalHires := c.stats.totalHires + 1 } } := by
  have hid : app.id = aid := by
    have h := List.find?_some (by simpa [findApplication] using ha)
    simpa using h
  unfold updateApplicationStatus
  rw [if_neg (by simp [validStatuses]), ha]
  dsimp only
  rw [if_neg (fun hcc : app.companyId ≠ app.companyId => hcc rfl)]
  dsimp only
  rw [if_pos ⟨rfl, href⟩]
  dsimp only
  simp only [processReferralPayment, href, hrb, hjob, Option.isNone_some, Bool.not_true,
    Bool.false_or, Bool.false_eq_true, if_false]
  refine ⟨by trivial, ?_, ?_, ?_⟩
  · rw [findApplication_updateApplicationById_self _ _ _ fun a _ => by
      rw [preSave_id]; exact hid]
    rw [findApplication_updateUserById, findApplication_updateCompanyById,
      findApplication_updateUserById, ha]
    simp [preSave, Ne.symm hold]
  · rw [findUser_updateApplicationById, findUser_userSuccessfulReferralsInc,
      findUser_updateCompanyById, findUser_userEarningsInc, huser]
    simp [userSuccessfulReferralsInc, userEarningsInc]
  · rw [findCompany_updateApplicationById, findCompany_updateUserById,
      findCompany_companyTotalHiresInc, findCompany_updateUserById, hcomp]
    simp [companyTotalHiresInc]

/-- Fixture for the hire claim: a shortlisted referred application, the
referrer user 1, job fee 1000. -/
def storeHire : Store :=
  { users :=
      [{ id := 1, referralCode := "REF-ANA-000001" },
       { id := 2, referralCode := "REF-BOB-000002" }]
    companies := [{ id := 10 }]
    jobs := [{ id := 100, companyId := 10, referralFee := 1000, status := .active }]
    applications :=
      [{ id := 5, jobId := 100, applicantId := 2, companyId := 10
         referredBy := some 1, isReferral := true, status := .shortlisted }] }

/-- Witness: hiring the shortlisted referred application of `storeHire`
records the eligible 1000 payment and bumps all four counters. -/
theorem c3_hire_referral_effects_witness :
    (updateApplicationStatus storeHire
        { companyId := 10, applicationId := 5, status := .hired, note := none } 6).2 =
      .ok (.shortlisted, .hired) ∧
    (findApplication (updateApplicationStatus storeHire
        { companyId := 10, applicationId := 5, status := .hired, note := none } 6).1
        5).map
        (fun a => (a.referralPayment.isEligible, a.referralPayment.amount,
          a.referralPayment.status)) =
      some (true, 1000, PayStatus.pending) ∧
    findUser (updateApplicationStatus storeHire
        { companyId := 10, applicationId := 5, status := .hired, note := none } 6).1 1 =
      some { id := 1, referralCode := "REF-ANA-000001"
             referralStats := { successfulReferrals := 1, totalEarnings := 1000
                                pendingEarnings := 1000 } } ∧
    findCompany (updateApplicationStatus storeHire
        { companyId := 10, applicationId := 5, status := .hired, note := none } 6).1 10 =
      some { id := 10, stats := { totalHires := 1 } } :=
  c3_hire_referral_effects storeHire 5 1
    { id := 5, jobId := 100, applicantId := 2, companyId := 10
      referredBy := some 1, isReferral := true, status := .shortlisted }
    { id := 100, companyId := 10, referralFee := 1000, status := .active }
    { id := 1, referralCode := "REF-ANA-000001" }
    { id := 10 }
    none 6 (by decide) rfl rfl (by decide) (by decide) (by decide) (by decide)

/-! ### C5: totalEarnings = pendingEarnings + paidEarnings -/

/-- Pointwise-invariant-preserving user updates preserve the store-wide
earnings invariant. -/
theorem allEarnInv_updateUserById (st : Store) (i : Nat) (f : User → User)
    (hf : ∀ u, earnInv u.referralStats → earnInv (f u).referralStats)
    (h : allEarnInv st) : allEarnInv (updateUserById st i f) := by
  intro u hu
  simp only [updateUserById, updById, List.mem_map] at hu
  obtain ⟨a, haa, rfl⟩ := hu
  by_cases hai : (a.id == i) = true
  · simp only [hai, if_true]
    exact hf a (h a haa)
  · simp only [hai, if_false]
    exact h a haa

/-- Company updates do not touch users. -/
theorem allEarnInv_updateCompanyById (st : Store) (i : Nat) (f : Company → Company) :
    allEarnInv (updateCompanyById st i f) ↔ allEarnInv st := Iff.rfl

/-- Job updates do not touch users. -/
theorem allEarnInv_updateJobById (st : Store) (i : Nat) (f : Job → Job) :
    allEarnInv (updateJobById st i f) ↔ allEarnInv st := Iff.rfl

/-- Application updates do not touch users. -/
theorem allEarnInv_updateApplicationById (st : Store) (i : Nat)
    (f : Application → Application) :
    allEarnInv (updateApplicationById st i f) ↔ allEarnInv st := Iff.rfl

/-- Replacing the applications list does not touch users. -/
theorem allEarnInv_withApplications (st : Store) (x : List Application) :
    allEarnInv { st with applications := x } ↔ allEarnInv st := Iff.rfl

/-- The hire-time accrual adds the fee to pendingEarnings and
totalEarnings alike, so it preserves the invariant. -/
theorem earnInv_userEarningsInc (fee : Int) (u : User)
    (h : earnInv u.referralStats) : earnInv (userEarningsInc fee u).referralStats := by
  simp only [userEarningsInc, earnInv] at h ⊢
  omega

/-- processReferralPayment preserves the store-wide earnings invariant. -/
theorem allEarnInv_processReferralPayment (st : Store) (app : Application) (now : Nat)
    (h : allEarnInv st) : allEarnInv (processReferralPayment st app now).2 := by
  unfold processReferralPayment
  dsimp only
  split
  · exact h
  · split
    · exact h
    · split
      · exact allEarnInv_updateUserById _ _ _ (earnInv_userEarningsInc _) h
      · exact h

/-- submitApplication preserves the store-wide earnings invariant. -/
theorem allEarnInv_submit (st : Store) (req : SubmitReq) (freshId now : Nat)
    (h : allEarnInv st) : allEarnInv (submitApplication st req freshId now).1 := by
  unfold submitApplication
  dsimp only
  split
  · exact h
  · split
    · exact h
    · split
      · exact h
      · rw [allEarnInv_updateCompanyById]
        split
        · split
          · exact allEarnInv_updateUserById _ _ _ (fun u hu => hu)
              (((allEarnInv_updateJobById _ _ _).trans
                (allEarnInv_withApplications _ _)).mpr h)
          · exact ((allEarnInv_updateJobById _ _ _).trans
              (allEarnInv_withApplications _ _)).mpr h
        · exact ((allEarnInv_updateJobById _ _ _).trans
            (allEarnInv_withApplications _ _)).mpr h

/-- updateApplicationStatus preserves the store-wide earnings invariant. -/
theorem allEarnInv_updateStatus (st : Store) (req : UpdateStatusReq) (now : Nat)
    (h : allEarnInv st) : allEarnInv (updateApplicationStatus st req now).1 := by
  unfold updateApplicationStatus
  dsimp only
  split
  · exact h
  · split
    · exact h
    · split
      · exact h
      · rw [allEarnInv_updateApplicationById]
        split
        · split
          · exact allEarnInv_updateUserById _ _ _ (fun u hu => hu)
              ((allEarnInv_updateCompanyById _ _ _).mpr
                (allEarnInv_processReferralPayment _ _ _ h))
          · exact (allEarnInv_updateCompanyById _ _ _).mpr
              (allEarnInv_processReferralPayment _ _ _ h)
        · exact h

/-- withdrawApplication preserves the store-wide earnings invariant. -/
theorem allEarnInv_withdraw (st : Store) (userId appId : Nat)
    (reason : Option String) (now : Nat) (h : allEarnInv st) :
    allEarnInv (withdrawApplication st userId appId reason now).1 := by
  unfold withdrawApplication
  dsimp only
  split
  · exact h
  · split
    · exact h
    · split
      · exact h
      · exact (allEarnInv_updateApplicationById _ _ _).mpr h

/-- The payout step moves the amount between pendingEarnings and
paidEarnings, preserving the invariant. -/
theorem allEarnInv_payout (st : Store) (userId : Nat) (amount : Int)
    (h : allEarnInv st) :
    allEarnInv (applyStatsUpdate st userId .paymentProcessed amount) := by
  refine allEarnInv_updateUserById _ _ _ (fun u hu => ?_) h
  simp only [updateReferralStats, earnInv] at hu ⊢
  omega

/-- C5.  The invariant totalEarnings = pendingEarnings + paidEarnings
holds for every user after any sequence of submit, status-update
(including the hire accrual), withdraw, and payout operations, provided
it holds initially (it does on the schema defaults 0/0/0). -/
theorem c5_earnings_invariant (st : Store) (ops : List SysOp)
    (h : allEarnInv st) : allEarnInv (applySysOps st ops) := by
  induction ops generalizing st with
  | nil => exact h
  | cons op t ih =>
    refine ih _ ?_
    cases op with
    | submit req freshId now => exact allEarnInv_submit st req freshId now h
    | updateStatus req now => exact allEarnInv_updateStatus st req now h
    | withdraw userId appId reason now =>
      exact allEarnInv_withdraw st userId appId reason now h
    | payout userId amount => exact allEarnInv_payout st userId amount h

/-- Witness: running submit, hire, and payout on `storeHire`-like data
keeps every user's earnings identity intact. -/
theorem c5_earnings_invariant_witness :
    allEarnInv storeSelfRef ∧
    allEarnInv (applySysOps storeSelfRef
      [.submit { userId := 2, jobId := 100, referralCode := some "REF-ANA-000001" } 5 0,
       .updateStatus { companyId := 10, applicationId := 5, status := .hired } 1,
       .payout 1 1000]) :=
  ⟨by decide, c5_earnings_invariant storeSelfRef
    [.submit { userId := 2, jobId := 100, referralCode := some "REF-ANA-000001" } 5 0,
     .updateStatus { companyId := 10, applicationId := 5, status := .hired } 1,
     .payout 1 1000] (by decide)⟩

end Referd
